import Mathlib

/-!
Shallow embedding of the list virtualizer hook in
src/vite-project/src/hooks/useFixedSizeList.ts.

The pure recomputation (the useMemo block, source lines 144-215) is modelled
as an explicit left fold over the index range, matching the source loop
statement by statement.  The measurement callback (measureElementInner,
source lines 225-282) is modelled as a pure function from its inputs to the
ordered list of externally visible effects it performs.  JavaScript numbers
are modelled as integers; JavaScript Array.prototype.slice (with its
negative-index semantics) is modelled by jsSlice.
-/

namespace Scroll

/-- A computed row, mirroring the object literal built at source lines
174-179: key, index, height and offsetTop. -/
structure Row (κ : Type) where
  key : κ
  index : Nat
  height : Int
  offsetTop : Int
deriving DecidableEq, Repr

/-- The mutable locals of the useMemo loop (source lines 160-169):
running totalHeight, the two sentinel-initialised indices, and the rows
accumulated so far. -/
structure LoopState (κ : Type) where
  totalHeight : Int
  startIndex : Int
  endIndex : Int
  rows : List (Row κ)
deriving DecidableEq, Repr

/-- Initial loop state: totalHeight = 0, startIndex = endIndex = -1,
no rows (source lines 160-169). -/
def initState {κ : Type} : LoopState κ := ⟨0, -1, -1, []⟩

/-- One iteration of the for loop at source lines 171-191: build the row at
the current index with offsetTop equal to the running total, add its height
to the total, and set startIndex and endIndex the first time their boundary
conditions hold. -/
def loopBody {κ : Type} (getItemKey : Nat → κ) (h : Nat → Int)
    (rangeStart rangeEnd : Int) (itemsCount : Nat) (overscan : Int)
    (s : LoopState κ) (index : Nat) : LoopState κ :=
  let row : Row κ := ⟨getItemKey index, index, h index, s.totalHeight⟩
  { totalHeight := s.totalHeight + row.height
    startIndex :=
      if s.startIndex = -1 ∧ row.offsetTop + row.height > rangeStart then
        max 0 ((index : Int) - overscan)
      else s.startIndex
    endIndex :=
      if s.endIndex = -1 ∧ row.offsetTop + row.height ≥ rangeEnd then
        min ((itemsCount : Int) - 1) ((index : Int) + overscan)
      else s.endIndex
    rows := s.rows ++ [row] }

/-- The whole for loop at source lines 171-191, iterating index from 0 to
itemsCount - 1 over the initial state. -/
def runLoop {κ : Type} (getItemKey : Nat → κ) (h : Nat → Int)
    (rangeStart rangeEnd : Int) (itemsCount : Nat) (overscan : Int) :
    LoopState κ :=
  (List.range itemsCount).foldl
    (loopBody getItemKey h rangeStart rangeEnd itemsCount overscan) initState

/-- JavaScript Array.prototype.slice with integer arguments, including the
negative-index convention: a negative bound counts from the end of the
array.  Used at source line 197. -/
def jsSlice {α : Type} (l : List α) (s e : Int) : List α :=
  let len : Int := l.length
  let s' := if s < 0 then max (len + s) 0 else min s len
  let e' := if e < 0 then max (len + e) 0 else min e len
  (l.drop s'.toNat).take (e' - s').toNat

/-- The record returned by the useMemo block (source lines 199-205). -/
structure ListResult (κ : Type) where
  virtualItems : List (Row κ)
  startIndex : Int
  endIndex : Int
  allItems : List (Row κ)
  totalHeight : Int
deriving DecidableEq, Repr

/-- The useMemo computation (source lines 145-205) for a resolved
height-lookup function h: rangeStart = scrollTop, rangeEnd = scrollTop +
listHeight, run the loop, and slice out the virtual rows with
allRows.slice(startIndex, endIndex + 1). -/
def computeRange {κ : Type} (itemsCount : Nat) (scrollTop listHeight : Int)
    (overscan : Int) (getItemKey : Nat → κ) (h : Nat → Int) : ListResult κ :=
  let st := runLoop getItemKey h scrollTop (scrollTop + listHeight)
    itemsCount overscan
  { virtualItems := jsSlice st.rows st.startIndex (st.endIndex + 1)
    startIndex := st.startIndex
    endIndex := st.endIndex
    allItems := st.rows
    totalHeight := st.totalHeight }

/-- The height resolver defined inside useMemo (source lines 146-156): a
supplied itemHeight function wins; otherwise a cached measurement under the
item key; otherwise the estimate.  The source reads the estimate through a
non-null assertion; validateProps is meant to rule the missing case out, so
the estimate is taken here as a total function. -/
def getItemHeight {κ : Type} (itemHeight : Option (Nat → Int))
    (measurementCache : κ → Option Int) (estimateItemHeight : Nat → Int)
    (getItemKey : Nat → κ) (index : Nat) : Int :=
  match itemHeight with
  | some f => f index
  | none =>
    match measurementCache (getItemKey index) with
    | some v => v
    | none => estimateItemHeight index

/-- The useMemo computation with the height resolver plugged in, tying
computeRange to the props and the measurement cache. -/
def useFixedSizeListMemo {κ : Type} (itemsCount : Nat)
    (scrollTop listHeight overscan : Int) (itemHeight : Option (Nat → Int))
    (measurementCache : κ → Option Int) (estimateItemHeight : Nat → Int)
    (getItemKey : Nat → κ) : ListResult κ :=
  computeRange itemsCount scrollTop listHeight overscan getItemKey
    (getItemHeight itemHeight measurementCache estimateItemHeight getItemKey)

/-- validateProps (source lines 26-34).  The source destructures itemsCount
and estimateItemHeight from the props and throws when
(not itemsCount) and (not estimateItemHeight), i.e. when itemsCount is 0 and
no estimate function is supplied; the itemHeight prop is never consulted,
although the error message names it. -/
def validateProps (itemsCount : Nat) (itemHeight : Option (Nat → Int))
    (estimateItemHeight : Option (Nat → Int)) : Except String Unit :=
  if itemsCount = 0 ∧ estimateItemHeight.isNone then
    Except.error
      "your must pass either itemHeight or estimateItemHeight prop"
  else
    (fun _ => Except.ok ()) itemHeight

/-- Externally visible effects of one measureElementInner call, in program
order: unobserving or observing the element by the resize observer, logging
the invalid-index error, scrolling the viewport by a delta, committing a
height into the measurement cache, and crash for the undefined access the
source would perform via allItems with an out-of-range index. -/
inductive Effect (κ : Type) where
  | unobserve
  | observe
  | logError (msg : String)
  | scrollBy (delta : Int)
  | cacheSet (key : κ) (height : Int)
  | crash
deriving DecidableEq, Repr

/-- Arguments of one measureElementInner call (source lines 226-230 plus
the DOM reads it performs): whether the element argument is non-null,
whether it is connected to the document, the parsed data-index attribute
(none models NaN), the resize-observer entry's measured block size when the
call is a resize notification, and the height getBoundingClientRect would
report. -/
structure MeasureArgs where
  elementPresent : Bool
  elementConnected : Bool
  dataIndex : Option Nat
  entry : Option Int
  rectHeight : Int
deriving DecidableEq, Repr

/-- The snapshot read from latestData.current at source lines 249-250,
together with whether getScrollElement() returns a non-null element
(source line 273). -/
structure LatestData (κ : Type) where
  measurementCache : κ → Option Int
  getItemKey : Nat → κ
  allItems : List (Row κ)
  scrollTop : Int
  scrollElementPresent : Bool

/-- measureElementInner (source lines 225-282) as a pure function from its
arguments and the latestData snapshot to the ordered list of effects it
performs.  Branches follow the source: null element (line 231), detached
element (line 235), invalid data-index (line 243), the observe call (line
255), the initial-measurement cache-hit early return (line 257), the
unchanged-height early return (line 265), the conditional scroll
compensation (lines 272-277) and the cache commit (line 279). -/
def measureElementInner {κ : Type} (a : MeasureArgs) (d : LatestData κ) :
    List (Effect κ) :=
  if a.elementPresent = false then []
  else if a.elementConnected = false then [Effect.unobserve]
  else
    match a.dataIndex with
    | none =>
      [Effect.logError "dynamic elements must have a valid data-index attribute"]
    | some index =>
      let key := d.getItemKey index
      let isResize := a.entry.isSome
      if isResize = false ∧ (d.measurementCache key).isSome then
        [Effect.observe]
      else
        let height := a.entry.getD a.rectHeight
        if d.measurementCache key = some height then [Effect.observe]
        else
          match d.allItems.get? index with
          | none => [Effect.observe, Effect.crash]
          | some item =>
            let delta := height - item.height
            [Effect.observe]
              ++ (if delta ≠ 0 ∧ d.scrollTop > item.offsetTop then
                    (if d.scrollElementPresent then [Effect.scrollBy delta]
                     else [])
                  else [])
              ++ [Effect.cacheSet key height]

/-- Bottom edge of row i for a height-lookup h: the prefix sum of the
heights of rows 0 to i-1. -/
def offsetTopSpec (h : Nat → Int) : Nat → Int
  | 0 => 0
  | n + 1 => offsetTopSpec h n + h n

/-- First index below n satisfying p, scanning upward, mirroring the order
in which the source loop tests its boundary conditions. -/
def findFirst (p : Nat → Bool) : Nat → Option Nat
  | 0 => none
  | n + 1 =>
    match findFirst p n with
    | some i => some i
    | none => if p n then some n else none

end Scroll

namespace Scroll

/-- Value the loop leaves in startIndex after scanning indices below n:
the sentinel -1 until some index satisfies p, then max 0 (s - overscan) for
the first such index s. -/
def startIndexSpec (p : Nat → Bool) (overscan : Int) (n : Nat) : Int :=
  match findFirst p n with
  | some s => max 0 ((s : Int) - overscan)
  | none => -1

/-- Value the loop leaves in endIndex after scanning indices below n:
the sentinel -1 until some index satisfies p, then
min (itemsCount - 1) (e + overscan) for the first such index e. -/
def endIndexSpec (p : Nat → Bool) (itemsCount : Nat) (overscan : Int)
    (n : Nat) : Int :=
  match findFirst p n with
  | some e => min ((itemsCount : Int) - 1) ((e : Int) + overscan)
  | none => -1

theorem offsetTopSpec_eq_sum (h : Nat → Int) (n : Nat) :
    offsetTopSpec h n = ((List.range n).map h).sum := by
  induction n with
  | zero => simp [offsetTopSpec]
  | succ n ih => simp [offsetTopSpec, List.range_succ, ih]

theorem findFirst_eq_none_iff (p : Nat → Bool) (n : Nat) :
    findFirst p n = none ↔ ∀ j, j < n → p j = false := by
  induction n with
  | zero => simp [findFirst]
  | succ n ih =>
    simp only [findFirst]
    cases hf : findFirst p n with
    | some i =>
      constructor
      · intro hsome; simp at hsome
      · intro hall
        exfalso
        have hnone : findFirst p n = none :=
          ih.mpr (fun j hj => hall j (Nat.lt_succ_of_lt hj))
        rw [hf] at hnone; simp at hnone
    | none =>
      cases hp : p n with
      | true =>
        constructor
        · intro hsome; simp at hsome
        · intro hall
          exact absurd (hall n (Nat.lt_succ_self n)) (by simp [hp])
      | false =>
        constructor
        · intro _ j hj
          rcases Nat.lt_succ_iff_lt_or_eq.mp hj with hlt | rfl
          · exact ih.mp hf j hlt
          · exact hp
        · intro _; simp

theorem findFirst_eq_some_iff (p : Nat → Bool) (n s : Nat) :
    findFirst p n = some s ↔
    s < n ∧ p s = true ∧ ∀ j, j < s → p j = false := by
  induction n generalizing s with
  | zero => simp [findFirst]
  | succ n ih =>
    simp only [findFirst]
    cases hf : findFirst p n with
    | some i =>
      obtain ⟨hi, hpi, hmin⟩ := (ih i).mp hf
      constructor
      · intro hsome
        obtain rfl : i = s := by simpa using hsome
        exact ⟨Nat.lt_succ_of_lt hi, hpi, hmin⟩
      · rintro ⟨hs, hps, hsmin⟩
        have heq : i = s := by
          by_contra hne
          rcases Nat.lt_or_ge i s with hlt | hge
          · have hc := hsmin i hlt
            rw [hpi] at hc; exact absurd hc (by simp)
          · have hlt : s < i := by omega
            have hc := hmin s hlt
            rw [hps] at hc; exact absurd hc (by simp)
        simp [heq]
    | none =>
      have hall := (findFirst_eq_none_iff p n).mp hf
      cases hp : p n with
      | true =>
        constructor
        · intro hsome
          obtain rfl : n = s := by simpa using hsome
          exact ⟨Nat.lt_succ_self n, hp, hall⟩
        · rintro ⟨hs, hps, hsmin⟩
          have heq : s = n := by
            rcases Nat.lt_succ_iff_lt_or_eq.mp hs with hlt | rfl
            · have hc := hall s hlt
              rw [hps] at hc; exact absurd hc (by simp)
            · rfl
          simp [heq]
      | false =>
        constructor
        · intro hsome; simp at hsome
        · rintro ⟨hs, hps, hsmin⟩
          exfalso
          rcases Nat.lt_succ_iff_lt_or_eq.mp hs with hlt | rfl
          · have hc := hall s hlt
            rw [hps] at hc; exact absurd hc (by simp)
          · rw [hp] at hps; exact absurd hps (by simp)

theorem startIndexSpec_succ (p : Nat → Bool) (ov : Int) (n : Nat) :
    startIndexSpec p ov (n + 1) =
    if startIndexSpec p ov n = -1 ∧ p n = true then max 0 ((n : Int) - ov)
    else startIndexSpec p ov n := by
  unfold startIndexSpec
  simp only [findFirst]
  cases hf : findFirst p n with
  | some s =>
    have hmax : ¬ (max 0 ((s : Int) - ov) = -1) := by
      have := le_max_left 0 ((s : Int) - ov); omega
    simp [hmax]
  | none => cases hp : p n <;> simp [hp]

theorem endIndexSpec_succ (p : Nat → Bool) (ic : Nat) (ov : Int)
    (hov : 0 ≤ ov) (n : Nat) (hn : n + 1 ≤ ic) :
    endIndexSpec p ic ov (n + 1) =
    if endIndexSpec p ic ov n = -1 ∧ p n = true then
      min ((ic : Int) - 1) ((n : Int) + ov)
    else endIndexSpec p ic ov n := by
  unfold endIndexSpec
  simp only [findFirst]
  cases hf : findFirst p n with
  | some e =>
    have hic : (1 : Int) ≤ (ic : Int) := by exact_mod_cast Nat.one_le_iff_ne_zero.mpr (by omega)
    have hnn : (0 : Int) ≤ (e : Int) + ov := by positivity
    have hmin : ¬ (min ((ic : Int) - 1) ((e : Int) + ov) = -1) := by
      have := le_min (by omega : (0:Int) ≤ (ic : Int) - 1) hnn
      omega
    simp [hmin]
  | none => cases hp : p n <;> simp [hp]

theorem foldl_totalHeight_rows {κ : Type} (key : Nat → κ) (h : Nat → Int)
    (rs re : Int) (ic : Nat) (ov : Int) (n : Nat) :
    ((List.range n).foldl (loopBody key h rs re ic ov) initState).totalHeight =
      offsetTopSpec h n ∧
    ((List.range n).foldl (loopBody key h rs re ic ov) initState).rows =
      (List.range n).map (fun i => ⟨key i, i, h i, offsetTopSpec h i⟩) := by
  induction n with
  | zero => exact ⟨rfl, rfl⟩
  | succ n ih =>
    rw [List.range_succ, List.foldl_append]
    simp only [List.foldl_cons, List.foldl_nil]
    constructor
    · simp only [loopBody, ih.1, offsetTopSpec]
    · simp only [loopBody, ih.1, ih.2]
      rw [List.map_append]
      rfl

theorem foldl_startIndex {κ : Type} (key : Nat → κ) (h : Nat → Int)
    (rs re : Int) (ic : Nat) (ov : Int) (n : Nat) :
    ((List.range n).foldl (loopBody key h rs re ic ov) initState).startIndex =
    startIndexSpec (fun i => decide (offsetTopSpec h i + h i > rs)) ov n := by
  induction n with
  | zero => rfl
  | succ n ih =>
    rw [List.range_succ, List.foldl_append]
    simp only [List.foldl_cons, List.foldl_nil]
    rw [startIndexSpec_succ]
    simp only [loopBody, ih, (foldl_totalHeight_rows key h rs re ic ov n).1,
      decide_eq_true_eq]

theorem foldl_endIndex {κ : Type} (key : Nat → κ) (h : Nat → Int)
    (rs re : Int) (ic : Nat) (ov : Int) (hov : 0 ≤ ov) (n : Nat)
    (hn : n ≤ ic) :
    ((List.range n).foldl (loopBody key h rs re ic ov) initState).endIndex =
    endIndexSpec (fun i => decide (offsetTopSpec h i + h i ≥ re)) ic ov n := by
  induction n with
  | zero => rfl
  | succ n ih =>
    rw [List.range_succ, List.foldl_append]
    simp only [List.foldl_cons, List.foldl_nil]
    rw [endIndexSpec_succ _ _ _ hov _ hn]
    simp only [loopBody, ih (by omega),
      (foldl_totalHeight_rows key h rs re ic ov n).1, decide_eq_true_eq]

theorem foldl_endIndex_none {κ : Type} (key : Nat → κ) (h : Nat → Int)
    (rs re : Int) (ic : Nat) (ov : Int) (n : Nat)
    (hall : ∀ i, i < n → ¬(offsetTopSpec h i + h i ≥ re)) :
    ((List.range n).foldl (loopBody key h rs re ic ov) initState).endIndex =
      -1 := by
  induction n with
  | zero => rfl
  | succ n ih =>
    rw [List.range_succ, List.foldl_append]
    simp only [List.foldl_cons, List.foldl_nil]
    simp only [loopBody, (foldl_totalHeight_rows key h rs re ic ov n).1]
    rw [if_neg (by
      intro hc
      exact hall n (Nat.lt_succ_self n) hc.2)]
    exact ih (fun i hi => hall i (Nat.lt_succ_of_lt hi))

theorem computeRange_allItems {κ : Type} (ic : Nat) (st lh ov : Int)
    (key : Nat → κ) (h : Nat → Int) :
    (computeRange ic st lh ov key h).allItems =
    (List.range ic).map (fun i => ⟨key i, i, h i, offsetTopSpec h i⟩) :=
  (foldl_totalHeight_rows key h st (st + lh) ic ov ic).2

theorem computeRange_totalHeight {κ : Type} (ic : Nat) (st lh ov : Int)
    (key : Nat → κ) (h : Nat → Int) :
    (computeRange ic st lh ov key h).totalHeight = offsetTopSpec h ic :=
  (foldl_totalHeight_rows key h st (st + lh) ic ov ic).1

theorem computeRange_startIndex {κ : Type} (ic : Nat) (st lh ov : Int)
    (key : Nat → κ) (h : Nat → Int) :
    (computeRange ic st lh ov key h).startIndex =
    startIndexSpec (fun i => decide (offsetTopSpec h i + h i > st)) ov ic :=
  foldl_startIndex key h st (st + lh) ic ov ic

theorem computeRange_endIndex {κ : Type} (ic : Nat) (st lh ov : Int)
    (hov : 0 ≤ ov) (key : Nat → κ) (h : Nat → Int) :
    (computeRange ic st lh ov key h).endIndex =
    endIndexSpec (fun i => decide (offsetTopSpec h i + h i ≥ st + lh)) ic ov
      ic :=
  foldl_endIndex key h st (st + lh) ic ov hov ic (Nat.le_refl ic)

theorem computeRange_virtualItems {κ : Type} (ic : Nat) (st lh ov : Int)
    (key : Nat → κ) (h : Nat → Int) :
    (computeRange ic st lh ov key h).virtualItems =
    jsSlice (computeRange ic st lh ov key h).allItems
      (computeRange ic st lh ov key h).startIndex
      ((computeRange ic st lh ov key h).endIndex + 1) := rfl

theorem allItems_get_eq {κ : Type} (ic : Nat) (st lh ov : Int)
    (key : Nat → κ) (h : Nat → Int) (i : Nat) (r : Row κ)
    (hr : (computeRange ic st lh ov key h).allItems.get? i = some r) :
    i < ic ∧ r = ⟨key i, i, h i, offsetTopSpec h i⟩ := by
  rw [computeRange_allItems, List.get?_map] at hr
  by_cases hi : i < ic
  · rw [List.get?_range hi] at hr
    simp only [Option.map_some', Option.some_inj] at hr
    exact ⟨hi, hr.symm⟩
  · rw [List.get?_eq_none.mpr (by simpa using Nat.le_of_not_lt hi)] at hr
    simp at hr

theorem offsetTopSpec_mono (h : Nat → Int) (hpos : ∀ j, 0 ≤ h j)
    {i j : Nat} (hij : i ≤ j) :
    offsetTopSpec h i ≤ offsetTopSpec h j := by
  induction j with
  | zero =>
    obtain rfl : i = 0 := Nat.le_zero.mp hij
    exact le_refl _
  | succ j ih =>
    rcases Nat.le_succ_iff.mp hij with hle | rfl
    · refine le_trans (ih hle) ?_
      have := hpos j
      simp only [offsetTopSpec]
      omega
    · exact le_refl _

theorem jsSlice_end_zero {α : Type} (l : List α) (s : Int) :
    jsSlice l s 0 = [] := by
  simp only [jsSlice]
  have hlen : (0 : Int) ≤ (l.length : Int) := Int.natCast_nonneg _
  rw [if_neg (by omega : ¬ (0 : Int) < 0), min_eq_left hlen]
  by_cases hs : s < 0
  · rw [if_pos hs]
    have h0 : (0 : Int) ≤ max ((l.length : Int) + s) 0 := le_max_right _ _
    have ht : ((0 : Int) - max ((l.length : Int) + s) 0).toNat = 0 := by omega
    rw [ht, List.take_zero]
  · rw [if_neg hs]
    have h0 : (0 : Int) ≤ min s (l.length : Int) :=
      le_min (by omega) hlen
    have ht : ((0 : Int) - min s (l.length : Int)).toNat = 0 := by omega
    rw [ht, List.take_zero]

theorem startIndexSpec_of_some {p : Nat → Bool} {n s : Nat} (ov : Int)
    (hf : findFirst p n = some s) :
    startIndexSpec p ov n = max 0 ((s : Int) - ov) := by
  unfold startIndexSpec; rw [hf]

theorem startIndexSpec_of_none {p : Nat → Bool} {n : Nat} (ov : Int)
    (hf : findFirst p n = none) : startIndexSpec p ov n = -1 := by
  unfold startIndexSpec; rw [hf]

theorem endIndexSpec_of_some {p : Nat → Bool} {n e : Nat} (ic : Nat)
    (ov : Int) (hf : findFirst p n = some e) :
    endIndexSpec p ic ov n = min ((ic : Int) - 1) ((e : Int) + ov) := by
  unfold endIndexSpec; rw [hf]

theorem endIndexSpec_of_none {p : Nat → Bool} {n : Nat} (ic : Nat) (ov : Int)
    (hf : findFirst p n = none) : endIndexSpec p ic ov n = -1 := by
  unfold endIndexSpec; rw [hf]

theorem startIndexSpec_eq_neg_one_iff (p : Nat → Bool) (ov : Int) (n : Nat) :
    startIndexSpec p ov n = -1 ↔ ∀ j, j < n → p j = false := by
  cases hf : findFirst p n with
  | some s =>
    rw [startIndexSpec_of_some ov hf]
    constructor
    · intro hc
      exfalso
      have := le_max_left 0 ((s : Int) - ov)
      omega
    · intro hall
      exfalso
      have hnone := (findFirst_eq_none_iff p n).mpr hall
      rw [hf] at hnone; simp at hnone
  | none =>
    rw [startIndexSpec_of_none ov hf]
    simpa using (findFirst_eq_none_iff p n).mp hf

theorem endIndexSpec_eq_neg_one_iff (p : Nat → Bool) (ic : Nat) (ov : Int)
    (hov : 0 ≤ ov) (hic : 0 < ic) (n : Nat) :
    endIndexSpec p ic ov n = -1 ↔ ∀ j, j < n → p j = false := by
  cases hf : findFirst p n with
  | some e =>
    rw [endIndexSpec_of_some ic ov hf]
    constructor
    · intro hc
      exfalso
      have h1 : (1 : Int) ≤ (ic : Int) := by exact_mod_cast hic
      have h2 : (0 : Int) ≤ (e : Int) + ov := by positivity
      have := le_min (by omega : (0 : Int) ≤ (ic : Int) - 1) h2
      omega
    · intro hall
      exfalso
      have hnone := (findFirst_eq_none_iff p n).mpr hall
      rw [hf] at hnone; simp at hnone
  | none =>
    rw [endIndexSpec_of_none ic ov hf]
    simpa using (findFirst_eq_none_iff p n).mp hf

/-- C1: whenever the boundary indices exist within the collection — s is
the smallest index whose bottom edge offsetTop + height strictly exceeds
scrollOffset, and e is the smallest index whose bottom edge reaches or
passes scrollOffset + viewportHeight — the computed startIndex equals
max 0 (s - overscan) and the computed endIndex equals
min (itemsCount - 1) (e + overscan).  Overscan is non-negative, as its
declared type in the specification requires. -/
theorem claim1_range_boundaries {κ : Type} (itemsCount : Nat)
    (scrollOffset viewportHeight overscan : Int) (hov : 0 ≤ overscan)
    (key : Nat → κ) (h : Nat → Int) (s e : Nat)
    (hs : s < itemsCount)
    (hscond : offsetTopSpec h s + h s > scrollOffset)
    (hsmin : ∀ j, j < s → ¬(offsetTopSpec h j + h j > scrollOffset))
    (he : e < itemsCount)
    (hecond : offsetTopSpec h e + h e ≥ scrollOffset + viewportHeight)
    (hemin : ∀ j, j < e →
      ¬(offsetTopSpec h j + h j ≥ scrollOffset + viewportHeight)) :
    (computeRange itemsCount scrollOffset viewportHeight overscan key
      h).startIndex = max 0 ((s : Int) - overscan) ∧
    (computeRange itemsCount scrollOffset viewportHeight overscan key
      h).endIndex = min ((itemsCount : Int) - 1) ((e : Int) + overscan) := by
  constructor
  · rw [computeRange_startIndex]
    have hfs : findFirst
        (fun i => decide (offsetTopSpec h i + h i > scrollOffset))
        itemsCount = some s :=
      (findFirst_eq_some_iff _ _ _).mpr
        ⟨hs, by simpa using hscond, fun j hj => by simpa using hsmin j hj⟩
    exact startIndexSpec_of_some overscan hfs
  · rw [computeRange_endIndex _ _ _ _ hov]
    have hfe : findFirst
        (fun i =>
          decide (offsetTopSpec h i + h i ≥ scrollOffset + viewportHeight))
        itemsCount = some e :=
      (findFirst_eq_some_iff _ _ _).mpr
        ⟨he, by simpa using hecond, fun j hj => by simpa using hemin j hj⟩
    exact endIndexSpec_of_some itemsCount overscan hfe

/-- Witness for C1 at itemsCount = 5, all heights 10, scrollOffset = 15,
viewportHeight = 20, overscan = 3: the start boundary is s = 1 and the end
boundary is e = 3, so startIndex = max 0 (1 - 3) = 0 and
endIndex = min 4 6 = 4. -/
theorem claim1_range_boundaries_witness :
    (computeRange 5 15 20 3 (fun i => i)
      (fun _ => (10 : Int))).startIndex = max 0 ((1 : Int) - 3) ∧
    (computeRange 5 15 20 3 (fun i => i)
      (fun _ => (10 : Int))).endIndex = min ((5 : Int) - 1) ((3 : Int) + 3) :=
  claim1_range_boundaries 5 15 20 3 (by decide) (fun i => i)
    (fun _ => (10 : Int)) 1 3 (by decide) (by decide) (by decide)
    (by decide) (by decide) (by decide)

/-- C2: every computed Row has offsetTop equal to the sum of the heights of
the rows before it; offsets are monotonically non-decreasing when all
heights are non-negative; totalHeight is 0 when itemsCount is 0 and
otherwise equals the last row's offsetTop plus its height. -/
theorem claim2_prefix_sum_invariant {κ : Type} (itemsCount : Nat)
    (scrollTop listHeight overscan : Int) (key : Nat → κ) (h : Nat → Int) :
    (∀ i r,
      (computeRange itemsCount scrollTop listHeight overscan key
        h).allItems.get? i = some r →
      r.offsetTop =
        (((computeRange itemsCount scrollTop listHeight overscan key
          h).allItems.take i).map Row.height).sum) ∧
    ((∀ j, 0 ≤ h j) → ∀ i j r q, i ≤ j →
      (computeRange itemsCount scrollTop listHeight overscan key
        h).allItems.get? i = some r →
      (computeRange itemsCount scrollTop listHeight overscan key
        h).allItems.get? j = some q →
      r.offsetTop ≤ q.offsetTop) ∧
    (itemsCount = 0 →
      (computeRange itemsCount scrollTop listHeight overscan key
        h).totalHeight = 0) ∧
    (∀ r,
      (computeRange itemsCount scrollTop listHeight overscan key
        h).allItems.getLast? = some r →
      (computeRange itemsCount scrollTop listHeight overscan key
        h).totalHeight = r.offsetTop + r.height) := by
  refine ⟨?_, ?_, ?_, ?_⟩
  · intro i r hr
    obtain ⟨hi, rfl⟩ := allItems_get_eq _ _ _ _ _ _ _ _ hr
    rw [computeRange_allItems, ← List.map_take, List.take_range,
      Nat.min_eq_left (Nat.le_of_lt hi), List.map_map]
    have hcomp :
        (Row.height ∘ fun i =>
          (⟨key i, i, h i, offsetTopSpec h i⟩ : Row κ)) = h := rfl
    rw [hcomp, ← offsetTopSpec_eq_sum]
  · intro hpos i j r q hij hr hq
    obtain ⟨hi, rfl⟩ := allItems_get_eq _ _ _ _ _ _ _ _ hr
    obtain ⟨hj, rfl⟩ := allItems_get_eq _ _ _ _ _ _ _ _ hq
    exact offsetTopSpec_mono h hpos hij
  · intro hzero
    subst hzero
    rw [computeRange_totalHeight]
    rfl
  · intro r hr
    rw [computeRange_allItems] at hr
    rcases itemsCount with _ | n
    · simp at hr
    · rw [List.range_succ, List.map_append] at hr
      simp only [List.map_cons, List.map_nil] at hr
      rw [List.getLast?_concat] at hr
      obtain rfl : (⟨key n, n, h n, offsetTopSpec h n⟩ : Row κ) = r := by
        simpa using hr
      rw [computeRange_totalHeight]
      rfl

/-- Witness for C2 at itemsCount = 3 and constant height 10: the third
row's offsetTop is the sum of the two earlier heights, offsets are
monotone, the empty list has totalHeight 0, and totalHeight equals the
last row's offsetTop plus its height. -/
theorem claim2_prefix_sum_invariant_witness :
    ((⟨2, 2, 10, 20⟩ : Row Nat).offsetTop =
      (((computeRange 3 0 600 3 (fun i => i)
        (fun _ => (10 : Int))).allItems.take 2).map Row.height).sum) ∧
    ((⟨0, 0, 10, 0⟩ : Row Nat).offsetTop ≤
      (⟨2, 2, 10, 20⟩ : Row Nat).offsetTop) ∧
    (computeRange 0 0 600 3 (fun i => i)
      (fun _ => (10 : Int))).totalHeight = 0 ∧
    (computeRange 3 0 600 3 (fun i => i)
      (fun _ => (10 : Int))).totalHeight =
      (⟨2, 2, 10, 20⟩ : Row Nat).offsetTop +
        (⟨2, 2, 10, 20⟩ : Row Nat).height := by
  refine ⟨?_, ?_, ?_, ?_⟩
  · exact (claim2_prefix_sum_invariant 3 0 600 3 (fun i => i)
      (fun _ => (10 : Int))).1 2 ⟨2, 2, 10, 20⟩ (by decide)
  · exact (claim2_prefix_sum_invariant 3 0 600 3 (fun i => i)
      (fun _ => (10 : Int))).2.1 (fun j => by decide) 0 2 ⟨0, 0, 10, 0⟩
      ⟨2, 2, 10, 20⟩ (by decide) (by decide) (by decide)
  · exact (claim2_prefix_sum_invariant 0 0 600 3 (fun i => i)
      (fun _ => (10 : Int))).2.2.1 rfl
  · exact (claim2_prefix_sum_invariant 3 0 600 3 (fun i => i)
      (fun _ => (10 : Int))).2.2.2 ⟨2, 2, 10, 20⟩ (by decide)

/-- C8 as stated is false: it sums h over the half-open interval
[0, itemCount - 1), which omits the last item.  At itemCount = 1 with
constant height 10 the code computes totalHeight 10 while that sum is
empty. -/
theorem claim8_counterexample :
    ¬ ((computeRange 1 0 600 3 (fun i => i)
        (fun _ => (10 : Int))).totalHeight =
      ((List.range (1 - 1)).map (fun _ => (10 : Int))).sum) := by decide

/-- C8 amended: totalHeight equals the sum of h i over the half-open
interval [0, itemCount), i.e. over all items. -/
theorem claim8_total_height {κ : Type} (itemsCount : Nat)
    (scrollTop listHeight overscan : Int) (key : Nat → κ) (h : Nat → Int) :
    (computeRange itemsCount scrollTop listHeight overscan key
      h).totalHeight = ((List.range itemsCount).map h).sum := by
  rw [computeRange_totalHeight, offsetTopSpec_eq_sum]

/-- C10: when no index satisfies the end-boundary condition
offsetTop + height at or past scrollOffset + viewportHeight, endIndex keeps
its -1 sentinel and slicing with end bound endIndex + 1 = 0 yields an empty
virtualItems list, whatever rows overlap the window. -/
theorem claim10_empty_virtual_items {κ : Type} (itemsCount : Nat)
    (scrollOffset viewportHeight overscan : Int) (key : Nat → κ)
    (h : Nat → Int) (hpos : 0 < itemsCount)
    (hall : ∀ i, i < itemsCount →
      ¬(offsetTopSpec h i + h i ≥ scrollOffset + viewportHeight)) :
    (computeRange itemsCount scrollOffset viewportHeight overscan key
      h).virtualItems = [] := by
  have hend : (computeRange itemsCount scrollOffset viewportHeight overscan
      key h).endIndex = -1 :=
    foldl_endIndex_none key h scrollOffset (scrollOffset + viewportHeight)
      itemsCount overscan itemsCount hall
  rw [computeRange_virtualItems, hend]
  exact jsSlice_end_zero _ _

/-- Witness for C10: one row of height 10 against a 600-pixel viewport at
scrollOffset 0; the row is fully visible yet virtualItems is empty. -/
theorem claim10_empty_virtual_items_witness :
    (computeRange 1 0 600 3 (fun i => i)
      (fun _ => (10 : Int))).virtualItems = [] :=
  claim10_empty_virtual_items 1 0 600 3 (fun i => i) (fun _ => (10 : Int))
    (by decide) (by decide)

/-- C4 is violated by the source: with one row of height 10, a 600-pixel
viewport and scrollOffset 0, no index reaches the end boundary, and instead
of defaulting endIndex to the last index the loop leaves it at -1, so
startIndex = 0 is not at most endIndex = -1, endIndex is outside
[0, itemsCount - 1], and no items are returned. -/
theorem claim4_code_divergence :
    (computeRange 1 0 600 3 (fun i => i)
      (fun _ => (10 : Int))).startIndex = 0 ∧
    (computeRange 1 0 600 3 (fun i => i)
      (fun _ => (10 : Int))).endIndex = -1 ∧
    (computeRange 1 0 600 3 (fun i => i)
      (fun _ => (10 : Int))).virtualItems = [] := by decide

/-- C3 is violated by the source: validateProps tests itemsCount instead of
the itemHeight prop its own error message names, so a configuration with
itemsCount = 1 and neither height function passes validation (it would
crash later, not fail fast), while itemsCount = 0 with itemHeight supplied
and no estimate throws. -/
theorem claim3_code_divergence :
    validateProps 1 none none = Except.ok () ∧
    validateProps 0 (some fun _ => 40) none =
      Except.error
        "your must pass either itemHeight or estimateItemHeight prop" :=
  ⟨rfl, rfl⟩

/-- C7 as stated is false: with viewportHeight = 0 the source still runs
the same boundary tests, now with rangeEnd = scrollOffset, so at
itemsCount = 1, height 10, scrollOffset 0 the computed range is [0, 0],
not the -1 sentinels the claim requires. -/
theorem claim7_counterexample :
    ¬ ((computeRange 1 0 0 3 (fun i => i)
        (fun _ => (10 : Int))).startIndex = -1 ∧
      (computeRange 1 0 0 3 (fun i => i)
        (fun _ => (10 : Int))).endIndex = -1) := by decide

/-- C7 amended: with viewportHeight = 0 the rows and totalHeight are still
computed, identical to any other viewport height, but the range is not
unset in general: the boundary rules run with the degenerate window
[scrollOffset, scrollOffset], so startIndex keeps its -1 sentinel exactly
when no row's bottom edge strictly exceeds scrollOffset, and endIndex
keeps its -1 sentinel exactly when no row's bottom edge reaches
scrollOffset. -/
theorem claim7_zero_viewport {κ : Type} (itemsCount : Nat)
    (hpos : 0 < itemsCount) (scrollOffset viewportHeight overscan : Int)
    (hov : 0 ≤ overscan) (key : Nat → κ) (h : Nat → Int) :
    (computeRange itemsCount scrollOffset 0 overscan key h).allItems =
      (computeRange itemsCount scrollOffset viewportHeight overscan key
        h).allItems ∧
    (computeRange itemsCount scrollOffset 0 overscan key h).totalHeight =
      (computeRange itemsCount scrollOffset viewportHeight overscan key
        h).totalHeight ∧
    ((computeRange itemsCount scrollOffset 0 overscan key h).startIndex =
        -1 ↔
      ∀ i, i < itemsCount →
        ¬(offsetTopSpec h i + h i > scrollOffset)) ∧
    ((computeRange itemsCount scrollOffset 0 overscan key h).endIndex =
        -1 ↔
      ∀ i, i < itemsCount →
        ¬(offsetTopSpec h i + h i ≥ scrollOffset)) := by
  refine ⟨?_, ?_, ?_, ?_⟩
  · rw [computeRange_allItems, computeRange_allItems]
  · rw [computeRange_totalHeight, computeRange_totalHeight]
  · rw [computeRange_startIndex, startIndexSpec_eq_neg_one_iff]
    constructor <;> intro hall i hi <;> simpa using hall i hi
  · rw [computeRange_endIndex _ _ _ _ hov]
    simp only [add_zero]
    rw [endIndexSpec_eq_neg_one_iff _ itemsCount overscan hov hpos
      itemsCount]
    constructor <;> intro hall i hi <;> simpa using hall i hi

/-- Witness for C7 as amended: one row of height 10 at scrollOffset 0 with
viewportHeight 0 computes the same rows as with viewportHeight 600, and
its startIndex is not the -1 sentinel since the row's bottom edge exceeds
scrollOffset. -/
theorem claim7_zero_viewport_witness :
    (computeRange 1 0 0 3 (fun i => i)
      (fun _ => (10 : Int))).allItems =
      (computeRange 1 0 600 3 (fun i => i)
        (fun _ => (10 : Int))).allItems ∧
    ¬ (computeRange 1 0 0 3 (fun i => i)
        (fun _ => (10 : Int))).startIndex = -1 := by
  have hmain := claim7_zero_viewport 1 (by decide) 0 600 3 (by decide)
    (fun i => i) (fun _ => (10 : Int))
  refine ⟨hmain.1, fun hc => ?_⟩
  exact hmain.2.2.1.mp hc 0 (by decide) (by decide)

/-- C5: when a row's recorded height (the height of its last computed Row,
matching the cache entry when one exists) differs from the newly measured
height, the callback emits exactly one scrollBy of newHeight - oldHeight,
and emits it before the cacheSet commit, precisely when the current scroll
offset is strictly past the row's offsetTop; otherwise no scroll
adjustment is emitted and only the commit happens. -/
theorem claim5_scroll_compensation {κ : Type} (d : LatestData κ)
    (index : Nat) (item : Row κ) (newHeight rect : Int)
    (hitem : d.allItems.get? index = some item)
    (hcache : d.measurementCache (d.getItemKey index) = none ∨
      d.measurementCache (d.getItemKey index) = some item.height)
    (hne : newHeight ≠ item.height)
    (hscroll : d.scrollElementPresent = true) :
    (d.scrollTop > item.offsetTop →
      measureElementInner ⟨true, true, some index, some newHeight, rect⟩ d =
        [Effect.observe, Effect.scrollBy (newHeight - item.height),
          Effect.cacheSet (d.getItemKey index) newHeight]) ∧
    (¬ d.scrollTop > item.offsetTop →
      measureElementInner ⟨true, true, some index, some newHeight, rect⟩ d =
        [Effect.observe, Effect.cacheSet (d.getItemKey index) newHeight]) := by
  have hcne : ¬ d.measurementCache (d.getItemKey index) = some newHeight := by
    rcases hcache with hc | hc <;> rw [hc]
    · simp
    · simp only [Option.some_inj]
      exact fun he => hne he.symm
  have hdelta : newHeight - item.height ≠ 0 := sub_ne_zero_of_ne hne
  have hitem2 : d.allItems[index]? = some item := by
    rw [← List.get?_eq_getElem?]; exact hitem
  constructor
  · intro hgt
    simp [measureElementInner, hitem2, hcne, hdelta, hgt, hscroll]
  · intro hgt
    simp [measureElementInner, hitem2, hcne, hdelta, hgt, hscroll]

/-- Witness for C5: a single row of recorded height 40 at offsetTop 0,
remeasured at 50 with the viewport scrolled to 100, receives one scrollBy
of 10 before the cache commit. -/
theorem claim5_scroll_compensation_witness :
    measureElementInner ⟨true, true, some 0, some 50, 50⟩
      (⟨fun _ => none, fun i => i, [⟨0, 0, 40, 0⟩], 100, true⟩ :
        LatestData Nat) =
      [Effect.observe, Effect.scrollBy (50 - 40), Effect.cacheSet 0 50] :=
  (claim5_scroll_compensation
    (⟨fun _ => none, fun i => i, [⟨0, 0, 40, 0⟩], 100, true⟩ :
      LatestData Nat)
    0 ⟨0, 0, 40, 0⟩ 50 50 (by decide) (Or.inl rfl) (by decide) rfl).1
    (by decide)

/-- C6: a registration call (no resize entry) for an element whose key is
already in the measurement cache with its unchanged measured size returns
right after re-observing the element: no cache commit and no scroll
adjustment are emitted. -/
theorem claim6_idempotent_registration {κ : Type} (d : LatestData κ)
    (index : Nat) (v rect : Int)
    (hcache : d.measurementCache (d.getItemKey index) = some v)
    (hrect : rect = v) :
    measureElementInner ⟨true, true, some index, none, rect⟩ d =
      [Effect.observe] := by
  simp [measureElementInner, hcache]

/-- Witness for C6: re-registering an element of measured height 40 whose
key is cached at 40 emits only the observe call. -/
theorem claim6_idempotent_registration_witness :
    measureElementInner ⟨true, true, some 0, none, 40⟩
      (⟨fun _ => some 40, fun i => i, [⟨0, 0, 40, 0⟩], 0, true⟩ :
        LatestData Nat) = [Effect.observe] :=
  claim6_idempotent_registration
    (⟨fun _ => some 40, fun i => i, [⟨0, 0, 40, 0⟩], 0, true⟩ :
      LatestData Nat) 0 40 40 rfl rfl

/-- C9 as stated is false in its measurement part: measureElementInner
never consults the itemHeight prop, so with a fixed itemHeight of 40 and
an element measured at 50 past which the viewport has scrolled, the
callback still commits 50 to the cache and still scrolls the viewport by
10. -/
theorem claim9_counterexample :
    Effect.cacheSet (0 : Nat) 50 ∈
      measureElementInner ⟨true, true, some 0, some 50, 50⟩
        (⟨fun _ => none, fun i => i,
          (useFixedSizeListMemo 1 100 600 3 (some fun _ => 40)
            (fun _ => none) (fun _ => 16) (fun i => i)).allItems,
          100, true⟩ : LatestData Nat) ∧
    Effect.scrollBy 10 ∈
      measureElementInner ⟨true, true, some 0, some 50, 50⟩
        (⟨fun _ => none, fun i => i,
          (useFixedSizeListMemo 1 100 600 3 (some fun _ => 40)
            (fun _ => none) (fun _ => 16) (fun i => i)).allItems,
          100, true⟩ : LatestData Nat) := by decide

/-- C9 amended: when an itemHeight function is supplied, height resolution
bypasses the measurement state entirely — the resolver returns
itemHeight(index) whatever the cache holds, the computed result is
independent of the cache contents, and every computed Row's height equals
itemHeight(index); the measurement callback itself, however, still writes
to the cache and can still scroll when invoked. -/
theorem claim9_fixed_height_bypass {κ : Type} (itemsCount : Nat)
    (scrollTop listHeight overscan : Int) (f estimate : Nat → Int)
    (cache cache' : κ → Option Int) (key : Nat → κ) :
    (∀ i, getItemHeight (some f) cache estimate key i = f i) ∧
    useFixedSizeListMemo itemsCount scrollTop listHeight overscan (some f)
      cache estimate key =
      useFixedSizeListMemo itemsCount scrollTop listHeight overscan
        (some f) cache' estimate key ∧
    (∀ i r,
      (useFixedSizeListMemo itemsCount scrollTop listHeight overscan
        (some f) cache estimate key).allItems.get? i = some r →
      r.height = f i) := by
  refine ⟨fun i => rfl, rfl, ?_⟩
  intro i r hr
  have hget := allItems_get_eq itemsCount scrollTop listHeight overscan key
    (getItemHeight (some f) cache estimate key) i r hr
  rw [hget.2]
  rfl

/-- Witness for C9 as amended: with fixed height 40 and a cache entry of
99 for the item's key, the resolver returns 40 and the computed row's
height is 40. -/
theorem claim9_fixed_height_bypass_witness :
    getItemHeight (some fun _ => (40 : Int)) (fun _ => some (99 : Int))
      (fun _ => (16 : Int)) (fun i : Nat => i) 0 = 40 ∧
    (⟨0, 0, 40, 0⟩ : Row Nat).height = 40 := by
  refine ⟨?_, ?_⟩
  · exact (claim9_fixed_height_bypass 1 0 600 3 (fun _ => (40 : Int))
      (fun _ => (16 : Int)) (fun _ => some (99 : Int))
      (fun _ => some (99 : Int)) (fun i => i)).1 0
  · exact (claim9_fixed_height_bypass 1 0 600 3 (fun _ => (40 : Int))
      (fun _ => (16 : Int)) (fun _ => some (99 : Int))
      (fun _ => some (99 : Int)) (fun i => i)).2.2 0 ⟨0, 0, 40, 0⟩
      (by decide)

end Scroll
